import Mathlib

/-!
Verification development for the UniMarket messaging repository.

The development shallowly embeds the server-side encryption pipeline
(`utils/encryption.ts`), the key-derivation service (`services/keyService.ts`),
the message store gateway (`services/messageService.ts`), the message route
handler (`routes/messages.ts`) and the client reconciliation layer
(`MessagingPanel.tsx`).

Modelling conventions:
* Byte sequences are `List Nat` with every element `< 256`; a JavaScript
  string handed to a UTF-8 encoder is represented by its byte sequence.
* The external Node `crypto` primitives (SHA-256, HMAC-SHA256 and the
  AES-256-GCM keystream/authentication tag) are modelled by concrete
  executable digest functions with the same arities, output lengths and
  determinism; every theorem below depends only on those structural
  properties, never on the numeric values of the digests.
* The SQL Server store is modelled as an explicit `DB` state record; each
  query of the source is translated into the corresponding pure list
  operation and each transaction into an all-or-nothing state update.
* `crypto.randomBytes` and `process.env` reads are modelled as explicit
  parameters.
-/

/-! ## Base64 (Node `Buffer.from(s, 'base64')` / `buf.toString('base64')`) -/

/-- The 64-character base64 alphabet, in index order. -/
def b64alphabet : List Char :=
  ['A', 'B', 'C', 'D', 'E', 'F', 'G', 'H', 'I', 'J', 'K', 'L', 'M',
   'N', 'O', 'P', 'Q', 'R', 'S', 'T', 'U', 'V', 'W', 'X', 'Y', 'Z',
   'a', 'b', 'c', 'd', 'e', 'f', 'g', 'h', 'i', 'j', 'k', 'l', 'm',
   'n', 'o', 'p', 'q', 'r', 's', 't', 'u', 'v', 'w', 'x', 'y', 'z',
   '0', '1', '2', '3', '4', '5', '6', '7', '8', '9', '+', '/']

/-- Character encoding a 6-bit value. -/
def b64charOf (n : Nat) : Char := b64alphabet.getD n 'A'

/-- Inverse of `b64charOf`: the 6-bit value of an alphabet character,
`none` for padding and any character outside the alphabet (Node's base64
decoder skips those). -/
def b64sextetOf (c : Char) : Option Nat :=
  let i := b64alphabet.indexOf c
  if i < 64 then some i else none

/-- Encode a byte sequence into base64 characters, three bytes per
four-character group, `'='`-padded. -/
def b64encodeChunks : List Nat → List Char
  | a :: b :: c :: rest =>
      b64charOf (a / 4) :: b64charOf (a % 4 * 16 + b / 16) ::
      b64charOf (b % 16 * 4 + c / 64) :: b64charOf (c % 64) ::
      b64encodeChunks rest
  | [a, b] =>
      [b64charOf (a / 4), b64charOf (a % 4 * 16 + b / 16),
       b64charOf (b % 16 * 4), '=']
  | [a] =>
      [b64charOf (a / 4), b64charOf (a % 4 * 16), '=', '=']
  | [] => []

/-- Model of `buf.toString('base64')`. -/
def b64encode (bs : List Nat) : String := String.mk (b64encodeChunks bs)

/-- Reassemble bytes from a stream of 6-bit values; a trailing group of
fewer than four sextets yields the bytes its bits fully cover, as in
Node's lenient decoder. -/
def b64decodeSextets : List Nat → List Nat
  | s1 :: s2 :: s3 :: s4 :: rest =>
      (s1 * 4 + s2 / 16) :: (s2 % 16 * 16 + s3 / 4) :: (s3 % 4 * 64 + s4) ::
      b64decodeSextets rest
  | [s1, s2, s3] => [s1 * 4 + s2 / 16, s2 % 16 * 16 + s3 / 4]
  | [s1, s2] => [s1 * 4 + s2 / 16]
  | _ => []

/-- Model of `Buffer.from(s, 'base64')`: skip non-alphabet characters (including
`'='` padding), then decode the sextet stream. -/
def b64decode (s : String) : List Nat :=
  b64decodeSextets (s.data.filterMap b64sextetOf)

theorem b64sextetOf_b64charOf_all : ∀ n < 64, b64sextetOf (b64charOf n) = some n := by
  decide

theorem b64sextetOf_b64charOf {n : Nat} (h : n < 64) :
    b64sextetOf (b64charOf n) = some n :=
  b64sextetOf_b64charOf_all n h

theorem b64sextetOf_eq : b64sextetOf '=' = none := by decide

theorem b64decode_b64encodeChunks :
    ∀ bs : List Nat, (∀ x ∈ bs, x < 256) →
      b64decodeSextets ((b64encodeChunks bs).filterMap b64sextetOf) = bs
  | [], _ => rfl
  | [a], h => by
      have ha : a < 256 := h a (by simp)
      simp only [b64encodeChunks, List.filterMap]
      rw [b64sextetOf_b64charOf (by omega), b64sextetOf_b64charOf (by omega)]
      simp only [List.filterMap_cons, b64sextetOf_eq, List.filterMap_nil]
      simp only [b64decodeSextets]
      congr 1
      omega
  | [a, b], h => by
      have ha : a < 256 := h a (by simp)
      have hb : b < 256 := h b (by simp)
      simp only [b64encodeChunks, List.filterMap_cons]
      rw [b64sextetOf_b64charOf (by omega), b64sextetOf_b64charOf (by omega),
        b64sextetOf_b64charOf (by omega)]
      simp only [b64sextetOf_eq, List.filterMap_nil]
      simp only [b64decodeSextets]
      congr 1
      · omega
      congr 1
      omega
  | a :: b :: c :: rest, h => by
      have ha : a < 256 := h a (by simp)
      have hb : b < 256 := h b (by simp)
      have hc : c < 256 := h c (by simp)
      have hrest : ∀ x ∈ rest, x < 256 := fun x hx => h x (by simp [hx])
      simp only [b64encodeChunks, List.filterMap_cons]
      rw [b64sextetOf_b64charOf (by omega), b64sextetOf_b64charOf (by omega),
        b64sextetOf_b64charOf (by omega), b64sextetOf_b64charOf (by omega)]
      simp only [b64decodeSextets]
      rw [b64decode_b64encodeChunks rest hrest]
      congr 1
      · omega
      congr 1
      · omega
      congr 1
      omega

/-- Round-trip: decoding an encoded byte sequence recovers it. -/
theorem b64decode_b64encode (bs : List Nat) (h : ∀ x ∈ bs, x < 256) :
    b64decode (b64encode bs) = bs :=
  b64decode_b64encodeChunks bs h

theorem length_b64encodeChunks :
    ∀ bs : List Nat, (b64encodeChunks bs).length = (bs.length + 2) / 3 * 4
  | [] => rfl
  | [_] => by simp [b64encodeChunks]
  | [_, _] => by simp [b64encodeChunks]
  | _ :: _ :: _ :: rest => by
      simp only [b64encodeChunks, List.length_cons,
        length_b64encodeChunks rest]
      omega

/-- Length of a base64 encoding. -/
theorem length_b64encode (bs : List Nat) :
    (b64encode bs).length = (bs.length + 2) / 3 * 4 := by
  simpa [b64encode, String.length] using length_b64encodeChunks bs

/-! ## Digest primitives (models of Node `crypto`)

The repository calls four primitives of the external Node `crypto` module:
SHA-256, HMAC-SHA256, the AES-256-GCM keystream and the AES-256-GCM
authentication tag. Each is modelled as a concrete executable function with
the primitive's arity, determinism and output length (32, 32, caller-chosen
and 16 bytes respectively). No theorem below depends on the digest values
themselves. -/

/-- One absorption step of the model digests: fold a byte into a 64-bit
accumulator. -/
def absorbByte (acc b : Nat) : Nat := (acc * 257 + b + 1) % 2 ^ 64

/-- Squeeze `n` output bytes out of an absorbed accumulator. -/
def squeezeBytes (st n : Nat) : List Nat :=
  (List.range n).map fun i => (st / 2 ^ (i % 48) + st * (i + 1) + i * 131) % 256

theorem length_squeezeBytes (st n : Nat) : (squeezeBytes st n).length = n := by
  simp [squeezeBytes]

theorem squeezeBytes_lt (st n : Nat) : ∀ b ∈ squeezeBytes st n, b < 256 := by
  intro b hb
  simp only [squeezeBytes, List.mem_map] at hb
  obtain ⟨i, _, rfl⟩ := hb
  exact Nat.mod_lt _ (by norm_num)

/-- Model of `crypto.createHash('sha256')`: a deterministic 32-byte digest
of the input bytes. -/
def sha256Model (msg : List Nat) : List Nat :=
  squeezeBytes (msg.foldl absorbByte 1) 32

/-- Model of `crypto.createHmac('sha256', key)`: a deterministic 32-byte
digest of key and message, with the key absorbed first under a domain
separator. -/
def hmacSha256Model (key msg : List Nat) : List Nat :=
  squeezeBytes ((key ++ 257 :: msg).foldl absorbByte 2) 32

/-- Model of the AES-256-GCM keystream for a key/IV pair: `n` deterministic
bytes; GCM is a stream mode, so ciphertext = plaintext XOR keystream. -/
def aesGcmKeystream (key iv : List Nat) (n : Nat) : List Nat :=
  squeezeBytes ((key ++ 258 :: iv).foldl absorbByte 3) n

/-- Model of the 16-byte AES-256-GCM authentication tag over a key, IV and
raw ciphertext. -/
def aesGcmTag (key iv ct : List Nat) : List Nat :=
  squeezeBytes ((key ++ 259 :: iv ++ 260 :: ct).foldl absorbByte 4) 16

/-- The XOR-with-keystream transform that both `cipher.update` and
`decipher.update` apply in GCM's stream mode. -/
def gcmCiphertext (key iv data : List Nat) : List Nat :=
  List.zipWith Nat.xor data (aesGcmKeystream key iv data.length)

/-- Model of the UTF-8 byte view of a JavaScript string fed to a digest:
the code points of its characters (an injective byte-stream view; digest
inputs never require the bytes to be below 256). -/
def strBytes (s : String) : List Nat := s.data.map Char.toNat

/-! ## Encryption codec (`utils/encryption.ts`) -/

/-- Constant `KEY_LENGTH = 32` of `utils/encryption.ts`. -/
def KEY_LENGTH : Nat := 32

/-- Constant `IV_LENGTH = 12` of `utils/encryption.ts`. -/
def IV_LENGTH : Nat := 12

/-- Constant `TAG_LENGTH = 16` of `utils/encryption.ts`. -/
def TAG_LENGTH : Nat := 16

/-- The errors the codec can throw: the invalid-key-length `Error` thrown
by both functions, the OpenSSL invalid-IV error (`createCipheriv` /
`createDecipheriv` reject an empty GCM IV), the invalid-auth-tag-length
error of `setAuthTag`, and the GCM authentication failure thrown by
`decipher.final()`. -/
inductive CryptoError where
  | invalidKeyLength (got : Nat)
  | invalidIV
  | invalidAuthTagLength
  | authenticationFailure
deriving DecidableEq, Repr

/-- The `{ciphertext, iv}` envelope returned by `encryptMessage`. -/
structure Envelope where
  ciphertext : String
  iv : String
deriving DecidableEq, Repr

/-- Embedding of `encryptMessage(plaintext, keyBase64)` of `utils/encryption.ts`.
The plaintext is its UTF-8 byte sequence and the 12 random bytes drawn by
`crypto.randomBytes(IV_LENGTH)` are the explicit `ivBytes` argument; a
thrown `Error` becomes an `Except.error`. -/
def encryptMessage (plaintextBytes : List Nat) (keyBase64 : String)
    (ivBytes : List Nat) : Except CryptoError Envelope :=
  let key := b64decode keyBase64
  if key.length ≠ KEY_LENGTH then
    .error (.invalidKeyLength key.length)
  else if ivBytes.length = 0 then
    .error .invalidIV
  else
    let ct := gcmCiphertext key ivBytes plaintextBytes
    let tag := aesGcmTag key ivBytes ct
    .ok { ciphertext := b64encode (ct ++ tag), iv := b64encode ivBytes }

/-- Embedding of `decryptMessage(ciphertextBase64, ivBase64, keyBase64)` of
`utils/encryption.ts`: decode the key and IV, check the key length, split
the trailing 16 bytes off the decoded payload as the auth tag, verify it,
and return the decrypted bytes. -/
def decryptMessage (ciphertextBase64 ivBase64 keyBase64 : String) :
    Except CryptoError (List Nat) :=
  let key := b64decode keyBase64
  let iv := b64decode ivBase64
  if key.length ≠ KEY_LENGTH then
    .error (.invalidKeyLength key.length)
  else
    let combined := b64decode ciphertextBase64
    let ct := combined.take (combined.length - TAG_LENGTH)
    let tag := combined.drop (combined.length - TAG_LENGTH)
    if iv.length = 0 then
      .error .invalidIV
    else if tag.length ≠ TAG_LENGTH then
      .error .invalidAuthTagLength
    else if tag ≠ aesGcmTag key iv ct then
      .error .authenticationFailure
    else
      .ok (gcmCiphertext key iv ct)

/-! ## Key derivation (`utils/encryption.ts`, `services/keyService.ts`) -/

/-- Embedding of `deriveConversationKey(masterKey, conversationId)` of
`utils/encryption.ts`: HMAC-SHA256 of the conversation id under the
base64-decoded master key, base64-encoded. -/
def deriveConversationKey (masterKey conversationId : String) : String :=
  b64encode (hmacSha256Model (b64decode masterKey) (strBytes conversationId))

/-- JavaScript `s.substring(0, n)`. -/
def jsSubstring0 (s : String) (n : Nat) : String := String.mk (s.data.take n)

/-- Embedding of `KeyService.getConversationKey(conversationId)` of
`services/keyService.ts`. The `process.env.MASTER_ENCRYPTION_KEY` read is
the explicit `masterKey` argument; JavaScript truthiness sends both an
absent and an empty master key to the SHA-256 fallback branch. -/
def getConversationKey (masterKey : Option String) (conversationId : String) :
    String :=
  match masterKey with
  | some mk =>
      if mk = "" then
        jsSubstring0
          (b64encode (sha256Model (strBytes ("conversation-key-" ++ conversationId)))) 44
      else
        deriveConversationKey mk conversationId
  | none =>
      jsSubstring0
        (b64encode (sha256Model (strBytes ("conversation-key-" ++ conversationId)))) 44


/-! ## Codec lemmas -/

theorem zipWith_xor_lt :
    ∀ p ks : List Nat, (∀ b ∈ p, b < 256) → (∀ b ∈ ks, b < 256) →
      ∀ b ∈ List.zipWith Nat.xor p ks, b < 256
  | [], _, _, _ => by simp
  | _ :: _, [], _, _ => by simp
  | a :: p, k :: ks, hp, hk => by
      intro b hb
      simp only [List.zipWith_cons_cons, List.mem_cons] at hb
      rcases hb with rfl | hb
      · have h256 : (256 : Nat) = 2 ^ 8 := by norm_num
        rw [h256]
        exact Nat.xor_lt_two_pow (by have := hp a (by simp); omega)
          (by have := hk k (by simp); omega)
      · exact zipWith_xor_lt p ks (fun x hx => hp x (by simp [hx]))
          (fun x hx => hk x (by simp [hx])) b hb

theorem zipWith_xor_cancel :
    ∀ p ks : List Nat,
      List.zipWith Nat.xor (List.zipWith Nat.xor p ks) ks = p.take ks.length
  | [], _ => by simp
  | _ :: _, [] => by simp
  | a :: p, k :: ks => by
      simp only [List.zipWith_cons_cons, List.take, zipWith_xor_cancel p ks]
      congr 1
      exact Nat.xor_cancel_right k a

theorem gcmCiphertext_lt (key iv p : List Nat) (hp : ∀ b ∈ p, b < 256) :
    ∀ b ∈ gcmCiphertext key iv p, b < 256 :=
  zipWith_xor_lt p _ hp (squeezeBytes_lt _ _)

theorem length_gcmCiphertext (key iv p : List Nat) :
    (gcmCiphertext key iv p).length = p.length := by
  simp [gcmCiphertext, aesGcmKeystream, length_squeezeBytes]

theorem length_aesGcmKeystream (key iv : List Nat) (n : Nat) :
    (aesGcmKeystream key iv n).length = n :=
  length_squeezeBytes _ _

/-- Applying the GCM stream transform twice with the same key and IV is the
identity: deciphering is enciphering. -/
theorem gcmCiphertext_involutive (key iv p : List Nat) :
    gcmCiphertext key iv (gcmCiphertext key iv p) = p := by
  rw [gcmCiphertext, length_gcmCiphertext]
  rw [show gcmCiphertext key iv p
      = List.zipWith Nat.xor p (aesGcmKeystream key iv p.length) from rfl]
  rw [zipWith_xor_cancel, length_aesGcmKeystream,
    List.take_of_length_le (le_refl _)]

/-- Decrypting a well-formed envelope: a payload consisting of a ciphertext
with its matching tag appended, under a 32-byte key and the matching
non-empty IV, passes all checks and returns the deciphered bytes. -/
theorem decryptMessage_ok_of (key : String) (iv ct : List Nat)
    (hkey : (b64decode key).length = KEY_LENGTH)
    (hiv : ∀ b ∈ iv, b < 256) (hivne : iv.length ≠ 0)
    (hct : ∀ b ∈ ct, b < 256) :
    decryptMessage (b64encode (ct ++ aesGcmTag (b64decode key) iv ct))
      (b64encode iv) key = .ok (gcmCiphertext (b64decode key) iv ct) := by
  have hcomb : ∀ b ∈ ct ++ aesGcmTag (b64decode key) iv ct, b < 256 := by
    intro b hb
    rcases List.mem_append.mp hb with h | h
    · exact hct b h
    · exact squeezeBytes_lt _ _ b h
  have htlen : (aesGcmTag (b64decode key) iv ct).length = TAG_LENGTH :=
    length_squeezeBytes _ _
  simp only [decryptMessage]
  rw [b64decode_b64encode iv hiv, b64decode_b64encode _ hcomb]
  have hsplit : (ct ++ aesGcmTag (b64decode key) iv ct).length - TAG_LENGTH
      = ct.length := by
    rw [List.length_append, htlen]
    omega
  rw [hsplit, List.take_left, List.drop_left]
  rw [if_neg (by simp [hkey]), if_neg hivne, if_neg (by rw [htlen]; simp),
    if_neg (by simp)]

/-- C1: for every plaintext byte sequence and every base64 key decoding to
exactly 32 bytes, decrypting the envelope produced by `encryptMessage`
(its ciphertext and IV, with the same key) returns the plaintext. The
12-byte IV drawn by `crypto.randomBytes` inside `encryptMessage` is the
explicit `iv` argument. -/
theorem encryptMessage_decryptMessage_roundtrip (p iv : List Nat)
    (key : String) (hp : ∀ b ∈ p, b < 256) (hiv : ∀ b ∈ iv, b < 256)
    (hivlen : iv.length = IV_LENGTH)
    (hkey : (b64decode key).length = KEY_LENGTH) :
    ∃ env, encryptMessage p key iv = .ok env ∧
      decryptMessage env.ciphertext env.iv key = .ok p := by
  have hivne : iv.length ≠ 0 := by rw [hivlen]; decide
  have hct : ∀ b ∈ gcmCiphertext (b64decode key) iv p, b < 256 :=
    gcmCiphertext_lt _ _ _ hp
  refine ⟨⟨b64encode (gcmCiphertext (b64decode key) iv p
      ++ aesGcmTag (b64decode key) iv (gcmCiphertext (b64decode key) iv p)),
      b64encode iv⟩, ?_, ?_⟩
  · simp only [encryptMessage]
    rw [if_neg (by simp [hkey]), if_neg hivne]
  · have h := decryptMessage_ok_of key iv (gcmCiphertext (b64decode key) iv p)
      hkey hiv hivne hct
    rw [h, gcmCiphertext_involutive]

/-- A concrete 32-byte key in base64, used by the closed test instances. -/
def keyTest : String := b64encode (List.replicate 32 7)

/-- A concrete 12-byte IV, used by the closed test instances. -/
def ivTest : List Nat := [0, 1, 2, 3, 4, 5, 6, 7, 8, 9, 10, 11]

/-- Witness for the round-trip theorem at concrete inputs: plaintext bytes
of the string `hi`, a 32-byte key and a 12-byte IV. -/
theorem encryptMessage_decryptMessage_roundtrip_witness :
    ((∀ b ∈ [104, 105], b < 256) ∧ (∀ b ∈ ivTest, b < 256) ∧
      ivTest.length = IV_LENGTH ∧ (b64decode keyTest).length = KEY_LENGTH) ∧
    (∃ env, encryptMessage [104, 105] keyTest ivTest = .ok env ∧
      decryptMessage env.ciphertext env.iv keyTest = .ok [104, 105]) :=
  ⟨⟨by decide, by decide, by decide, by decide⟩,
    encryptMessage_decryptMessage_roundtrip [104, 105] ivTest keyTest
      (by decide) (by decide) (by decide) (by decide)⟩

/-- C7: both codec functions throw the invalid-key-length error exactly when
the base64-decoded key is not 32 bytes long; with a 32-byte key neither can
return that error (decryption may still fail, but only with a different
error). -/
theorem invalidKeyLength_iff (plaintextBytes ivBytes : List Nat)
    (ciphertextB64 ivB64 keyB64 : String) :
    ((b64decode keyB64).length ≠ KEY_LENGTH →
      encryptMessage plaintextBytes keyB64 ivBytes
          = .error (.invalidKeyLength (b64decode keyB64).length) ∧
      decryptMessage ciphertextB64 ivB64 keyB64
          = .error (.invalidKeyLength (b64decode keyB64).length)) ∧
    ((b64decode keyB64).length = KEY_LENGTH →
      (∀ n, encryptMessage plaintextBytes keyB64 ivBytes
          ≠ .error (.invalidKeyLength n)) ∧
      (∀ n, decryptMessage ciphertextB64 ivB64 keyB64
          ≠ .error (.invalidKeyLength n))) := by
  constructor
  · intro h
    constructor
    · simp only [encryptMessage]
      rw [if_pos h]
    · simp only [decryptMessage]
      rw [if_pos h]
  · intro h
    constructor
    · intro n
      simp only [encryptMessage]
      rw [if_neg (by simp [h])]
      split <;> simp
    · intro n
      simp only [decryptMessage]
      rw [if_neg (by simp [h])]
      split
      · simp
      · split
        · simp
        · split <;> simp

/-- Witness for the key-length theorem: a 1-byte key makes both functions
fail with the invalid-key-length error, and a 32-byte key rules it out. -/
theorem invalidKeyLength_iff_witness :
    ((b64decode "QQ==").length ≠ KEY_LENGTH ∧
      encryptMessage [104] "QQ==" [0, 1] = .error (.invalidKeyLength 1) ∧
      decryptMessage "QUJD" "QQ==" "QQ==" = .error (.invalidKeyLength 1)) ∧
    ((b64decode keyTest).length = KEY_LENGTH ∧
      ∀ n, encryptMessage [104] keyTest [0, 1] ≠ .error (.invalidKeyLength n)) := by
  refine ⟨⟨by decide, ?_, ?_⟩, ⟨by decide, ?_⟩⟩
  · have h := (invalidKeyLength_iff [104] [0, 1] "QUJD" "QQ==" "QQ==").1
      (by decide)
    simpa [show (b64decode "QQ==").length = 1 from by decide] using h.1
  · have h := (invalidKeyLength_iff [104] [0, 1] "QUJD" "QQ==" "QQ==").1
      (by decide)
    simpa [show (b64decode "QQ==").length = 1 from by decide] using h.2
  · exact ((invalidKeyLength_iff [104] [0, 1] "QUJD" "QQ==" keyTest).2
      (by decide)).1

/-! ## Key service lemmas -/

theorem jsSubstring0_of_length_le (s : String) (n : Nat) (h : s.length ≤ n) :
    jsSubstring0 s n = s := by
  obtain ⟨cs⟩ := s
  simp only [jsSubstring0]
  congr 1
  exact List.take_of_length_le h

theorem encryptMessage_not_invalidKeyLength (p iv : List Nat) (key : String)
    (h : (b64decode key).length = KEY_LENGTH) :
    ∀ n, encryptMessage p key iv ≠ .error (.invalidKeyLength n) := by
  intro n
  simp only [encryptMessage]
  rw [if_neg (by simp [h])]
  split <;> simp

theorem decryptMessage_not_invalidKeyLength (ct ivb key : String)
    (h : (b64decode key).length = KEY_LENGTH) :
    ∀ n, decryptMessage ct ivb key ≠ .error (.invalidKeyLength n) := by
  intro n
  simp only [decryptMessage]
  rw [if_neg (by simp [h])]
  split
  · simp
  · split
    · simp
    · split <;> simp

/-- The key produced by `getConversationKey` always base64-decodes to
exactly `KEY_LENGTH` bytes, on both derivation paths. -/
theorem length_b64decode_getConversationKey (masterKey : Option String)
    (conversationId : String) :
    (b64decode (getConversationKey masterKey conversationId)).length
      = KEY_LENGTH := by
  have hfall : ∀ s : List Nat,
      (b64decode (jsSubstring0 (b64encode (sha256Model s)) 44)).length
        = KEY_LENGTH := by
    intro s
    rw [jsSubstring0_of_length_le _ _ (by
      rw [length_b64encode, sha256Model, length_squeezeBytes])]
    rw [b64decode_b64encode (sha256Model s) (squeezeBytes_lt _ _), sha256Model,
      length_squeezeBytes]
    rfl
  match masterKey with
  | none => exact hfall _
  | some mk =>
      by_cases hmk : mk = ""
      · simp only [getConversationKey, if_pos hmk]
        exact hfall _
      · simp only [getConversationKey, if_neg hmk, deriveConversationKey]
        rw [b64decode_b64encode
            (hmacSha256Model (b64decode mk) (strBytes conversationId))
            (squeezeBytes_lt _ _), hmacSha256Model, length_squeezeBytes]
        rfl

/-- C10: for every non-empty conversation id, the key returned by
`getConversationKey` — on the master-key HMAC path and on the no-master-key
SHA-256 fallback path alike — decodes to exactly 32 bytes, so the codec
functions called with it can never throw the invalid-key-length error. -/
theorem getConversationKey_32_bytes (masterKey : Option String)
    (conversationId : String) (hcid : conversationId ≠ "") :
    (b64decode (getConversationKey masterKey conversationId)).length
        = KEY_LENGTH ∧
    (∀ p iv n, encryptMessage p (getConversationKey masterKey conversationId) iv
        ≠ .error (.invalidKeyLength n)) ∧
    (∀ ct ivb n, decryptMessage ct ivb (getConversationKey masterKey conversationId)
        ≠ .error (.invalidKeyLength n)) := by
  have hlen := length_b64decode_getConversationKey masterKey conversationId
  exact ⟨hlen, fun p iv => encryptMessage_not_invalidKeyLength p iv _ hlen,
    fun ct ivb => decryptMessage_not_invalidKeyLength ct ivb _ hlen⟩

/-- Witness for the key theorem: concrete conversation id on the fallback
path and on the HMAC path. -/
theorem getConversationKey_32_bytes_witness :
    ("c1" ≠ "" ∧
      (b64decode (getConversationKey none "c1")).length = KEY_LENGTH) ∧
    (b64decode (getConversationKey (some "master") "c1")).length
        = KEY_LENGTH :=
  ⟨⟨by decide, (getConversationKey_32_bytes none "c1" (by decide)).1⟩,
    (getConversationKey_32_bytes (some "master") "c1" (by decide)).1⟩

/-! ## Store model (`dbo` schema) and chronological sort

The SQL Server store is a record of row lists. `ORDER BY CreatedAt ASC`
(and the client's stable `Array.prototype.sort` by timestamp) is modelled
by a stable insertion sort on a numeric key: each element is inserted after
every already-placed element whose key is not larger. -/

/-- A `dbo.ConversationParticipants` row. -/
structure ParticipantRow where
  conversationId : String
  userId : String
  leftAt : Option Nat
deriving DecidableEq, Repr

/-- A `dbo.Messages` row (ciphertext and IV are base64 text columns;
timestamps are milliseconds). -/
structure MessageRow where
  id : String
  conversationId : String
  senderId : String
  ciphertext : String
  iv : String
  createdAt : Nat
  editedAt : Option Nat := none
  deletedAt : Option Nat := none
  replyToMessageId : Option String := none
deriving DecidableEq, Repr

/-- A `dbo.Users` row (the fields the gateway joins on). -/
structure UserRow where
  id : String
  displayName : Option String := none
  avatarUrl : Option String := none
deriving DecidableEq, Repr

/-- A `dbo.Conversations` row (the fields the gateway updates). -/
structure ConversationRow where
  id : String
  lastMessageId : Option String := none
  lastMessageAt : Option Nat := none
  updatedAt : Nat := 0
deriving DecidableEq, Repr

/-- The relational store. -/
structure DB where
  users : List UserRow := []
  conversations : List ConversationRow := []
  participants : List ParticipantRow := []
  messages : List MessageRow := []
deriving DecidableEq, Repr

/-- Insert `x` into an ascending-by-`key` list, after every element whose
key is not larger than `x`'s. -/
def insertChrono (key : α → Nat) (x : α) : List α → List α
  | [] => [x]
  | y :: ys => if key x < key y then x :: y :: ys else y :: insertChrono key x ys

/-- Stable ascending sort by `key`: left-to-right insertion. -/
def sortChrono (key : α → Nat) (l : List α) : List α :=
  l.foldl (fun acc x => insertChrono key x acc) []

theorem insertChrono_perm (key : α → Nat) (x : α) :
    ∀ l : List α, (insertChrono key x l).Perm (x :: l)
  | [] => List.Perm.refl _
  | y :: ys => by
      rw [insertChrono]
      split
      · exact List.Perm.refl _
      · exact ((insertChrono_perm key x ys).cons y).trans (List.Perm.swap x y ys)

theorem sortChrono_aux_perm (key : α → Nat) :
    ∀ (l acc : List α),
      (l.foldl (fun acc x => insertChrono key x acc) acc).Perm (acc ++ l)
  | [], acc => by simp
  | x :: xs, acc => by
      rw [List.foldl_cons]
      refine (sortChrono_aux_perm key xs (insertChrono key x acc)).trans ?_
      have h1 : (insertChrono key x acc ++ xs).Perm (x :: (acc ++ xs)) := by
        simpa using (insertChrono_perm key x acc).append_right xs
      exact h1.trans List.perm_middle.symm

/-- The sort permutes its input. -/
theorem sortChrono_perm (key : α → Nat) (l : List α) :
    (sortChrono key l).Perm l := by
  simpa using sortChrono_aux_perm key l []

theorem insertChrono_sorted (key : α → Nat) (x : α) (l : List α)
    (h : l.Pairwise fun a b => key a ≤ key b) :
    (insertChrono key x l).Pairwise fun a b => key a ≤ key b := by
  induction l with
  | nil => simp [insertChrono]
  | cons y ys ih =>
      rw [insertChrono]
      rcases List.pairwise_cons.mp h with ⟨hy, hys⟩
      split
      · rename_i hlt
        refine List.pairwise_cons.mpr ⟨?_, h⟩
        intro b hb
        rcases List.mem_cons.mp hb with rfl | hb
        · omega
        · have := hy b hb
          omega
      · rename_i hge
        refine List.pairwise_cons.mpr ⟨?_, ih hys⟩
        intro b hb
        have hperm := insertChrono_perm key x ys
        have hb' : b ∈ x :: ys := hperm.mem_iff.mp hb
        rcases List.mem_cons.mp hb' with rfl | hb'
        · omega
        · exact hy b hb'

/-- The sort output is ascending in `key`. -/
theorem sortChrono_sorted (key : α → Nat) (l : List α) :
    (sortChrono key l).Pairwise fun a b => key a ≤ key b := by
  rw [sortChrono]
  suffices h : ∀ (l acc : List α),
      acc.Pairwise (fun a b => key a ≤ key b) →
      (l.foldl (fun acc x => insertChrono key x acc) acc).Pairwise
        fun a b => key a ≤ key b by
    exact h l [] (by simp)
  intro l
  induction l with
  | nil => intro acc hacc; simpa using hacc
  | cons x xs ih =>
      intro acc hacc
      rw [List.foldl_cons]
      exact ih _ (insertChrono_sorted key x acc hacc)

/-! ## Message store gateway (`services/messageService.ts`) -/

/-- Embedding of `MessageService.isUserAuthorized`: an active participant row exists for
the pair (its `LeftAt` column is NULL). -/
def isUserAuthorized (db : DB) (conversationId userId : String) : Bool :=
  db.participants.any fun p =>
    p.conversationId == conversationId && p.userId == userId &&
    p.leftAt == none

/-- The query parameters of `getMessages`. -/
structure MessageQueryParams where
  limit : Option Nat := none
  offset : Option Nat := none
  before : Option String := none
  after : Option String := none

/-- Errors the gateway can throw: the two authorization throws (both of
whose messages contain `Not authorized`), a rejected `Invalid Date`
parameter (a missing or unparsable `createdAt`), a primary-key violation on
insert, a missing sender row making `recordset[0]` undefined after the
commit, and a propagated codec error. -/
inductive SvcError where
  | notAuthorized
  | invalidDate
  | duplicateMessageId
  | senderMissing
  | encryptionFailed (e : CryptoError)
deriving DecidableEq, Repr

/-- The plaintext message shape returned to API callers (`types.Message`);
`text` is the UTF-8 byte view of the plaintext. -/
structure MessageDto where
  id : String
  conversationId : String
  senderId : String
  text : List Nat
  createdAt : Nat
  editedAt : Option Nat := none
  deletedAt : Option Nat := none
  replyToMessageId : Option String := none
  senderName : Option String := none
  senderAvatar : Option String := none
deriving DecidableEq, Repr

/-- The `{data, hasMore, total}` page returned by `getMessages`. -/
structure PaginatedMessages where
  data : List MessageDto
  hasMore : Bool
  total : Nat
deriving DecidableEq, Repr

/-- The sentinel substituted for a row whose decryption fails. -/
def placeholderBytes : List Nat := strBytes "[Could not decrypt message]"

/-- The WHERE clause of the main SELECT: same conversation and
`DeletedAt IS NULL`. -/
def isLiveConvMessage (conversationId : String) (m : MessageRow) : Bool :=
  m.conversationId == conversationId && m.deletedAt == none

/-- JavaScript truthiness of an optional string parameter. -/
def truthy : Option String → Bool
  | none => false
  | some s => s != ""

/-- The timestamp boundary added for `params.before` / `params.after`
(`before` wins; a boundary message id that resolves to no row is ignored). -/
def boundaryPred (db : DB) (params : MessageQueryParams) (m : MessageRow) :
    Bool :=
  if truthy params.before then
    match db.messages.find? (fun r => r.id == params.before.getD "") with
    | some bm => decide (m.createdAt < bm.createdAt)
    | none => true
  else if truthy params.after then
    match db.messages.find? (fun r => r.id == params.after.getD "") with
    | some am => decide (am.createdAt < m.createdAt)
    | none => true
  else true

/-- Effective limit `Math.min(params.limit || 50, 100)`: JavaScript `||` sends an absent
(or zero) limit to the default 50 before the cap of 100 applies. -/
def effectiveLimit (limit : Option Nat) : Nat :=
  min (match limit with | some l => if l == 0 then 50 else l | none => 50) 100

/-- The row page produced by the main SELECT of `getMessages`: live rows of
the conversation within the boundary, inner-joined with `dbo.Users` on the
sender, `ORDER BY CreatedAt ASC`, then `OFFSET @Offset` and
`FETCH NEXT @Limit`. -/
def selectMessagesPage (db : DB) (conversationId : String)
    (params : MessageQueryParams) : List (MessageRow × UserRow) :=
  let rows := db.messages.filter fun m =>
    isLiveConvMessage conversationId m && boundaryPred db params m
  let joined := rows.filterMap fun m =>
    (db.users.find? (fun u => u.id == m.senderId)).map fun u => (m, u)
  ((sortChrono (fun r => r.1.createdAt) joined).drop (params.offset.getD 0)).take
    (effectiveLimit params.limit)

/-- The COUNT query of `getMessages`: live rows of the conversation, with
no boundary and no join. -/
def totalCount (db : DB) (conversationId : String) : Nat :=
  (db.messages.filter (isLiveConvMessage conversationId)).length

/-- Decrypt one selected row into the API shape; a failed decryption
degrades to the placeholder text. -/
def decryptRow (encryptionKey : String) (r : MessageRow × UserRow) :
    MessageDto :=
  let text := match decryptMessage r.1.ciphertext r.1.iv encryptionKey with
    | .ok t => t
    | .error _ => placeholderBytes
  { id := r.1.id
    conversationId := r.1.conversationId
    senderId := r.1.senderId
    text := text
    createdAt := r.1.createdAt
    editedAt := r.1.editedAt
    deletedAt := r.1.deletedAt
    replyToMessageId := r.1.replyToMessageId
    senderName := r.2.displayName
    senderAvatar := r.2.avatarUrl }

/-- Embedding of `MessageService.getMessages(conversationId, userId, params)`. -/
def getMessages (masterKey : Option String) (db : DB)
    (conversationId userId : String) (params : MessageQueryParams) :
    Except SvcError PaginatedMessages :=
  if ¬ isUserAuthorized db conversationId userId then
    .error .notAuthorized
  else
    let page := selectMessagesPage db conversationId params
    let total := totalCount db conversationId
    let hasMore := decide (params.offset.getD 0 + page.length < total)
    let encryptionKey := getConversationKey masterKey conversationId
    .ok { data := page.map (decryptRow encryptionKey)
          hasMore := hasMore
          total := total }

/-- The operations `createMessage` performs, in the order the source
performs them: key derivation (its line 160), encryption (line 163), then
inside the SQL batch the authorization check, the message INSERT and the
conversation UPDATE (lines 180-211). -/
inductive Ev where
  | deriveKey
  | encrypt
  | authCheck
  | insertMessage
  | updateConversation
deriving DecidableEq, Repr

/-- Result of `createMessage`: the store after the call (unchanged whenever
the transaction rolled back), the returned message or thrown error, and the
trace of performed operations in source order. -/
instance {ε α : Type} [DecidableEq ε] [DecidableEq α] :
    DecidableEq (Except ε α)
  | .error a, .error b =>
      if h : a = b then .isTrue (by rw [h]) else .isFalse (by simp [h])
  | .error _, .ok _ => .isFalse (by simp)
  | .ok _, .error _ => .isFalse (by simp)
  | .ok a, .ok b =>
      if h : a = b then .isTrue (by rw [h]) else .isFalse (by simp [h])

structure CreateResult where
  db : DB
  outcome : Except SvcError MessageDto
  trace : List Ev
deriving DecidableEq, Repr

/-- Embedding of `MessageService.createMessage(messageId, conversationId, senderId,
payload)`. `createdAt` is `none` when `new Date(payload.createdAt)` is an
invalid date (the driver rejects the parameter before the batch runs);
`ivBytes` is the randomness drawn inside `encryptMessage`; `now` is
`GETUTCDATE()`. The batch is all-or-nothing: on the authorization THROW or
an insert failure the transaction rolls back and the store is unchanged;
on success the row insert and the conversation-pointer update commit
together, after which a separate SELECT joins the sender row. -/
def createMessage (masterKey : Option String) (db : DB)
    (messageId conversationId senderId : String) (text : List Nat)
    (createdAt : Option Nat) (ivBytes : List Nat) (now : Nat) :
    CreateResult :=
  let encryptionKey := getConversationKey masterKey conversationId
  match encryptMessage text encryptionKey ivBytes with
  | .error e => ⟨db, .error (.encryptionFailed e), [.deriveKey, .encrypt]⟩
  | .ok env =>
    match createdAt with
    | none => ⟨db, .error .invalidDate, [.deriveKey, .encrypt]⟩
    | some ts =>
      if ¬ isUserAuthorized db conversationId senderId then
        ⟨db, .error .notAuthorized, [.deriveKey, .encrypt, .authCheck]⟩
      else if db.messages.any (fun m => m.id == messageId) then
        ⟨db, .error .duplicateMessageId, [.deriveKey, .encrypt, .authCheck]⟩
      else
        let row : MessageRow :=
          { id := messageId
            conversationId := conversationId
            senderId := senderId
            ciphertext := env.ciphertext
            iv := env.iv
            createdAt := ts }
        let db' : DB :=
          { db with
            messages := db.messages ++ [row]
            conversations := db.conversations.map (fun c =>
              if c.id == conversationId then
                { c with
                  lastMessageId := some messageId
                  lastMessageAt := some ts
                  updatedAt := now }
              else c) }
        match db'.users.find? (fun u => u.id == senderId) with
        | none =>
            ⟨db', .error .senderMissing,
              [.deriveKey, .encrypt, .authCheck, .insertMessage,
                .updateConversation]⟩
        | some u =>
            ⟨db',
              .ok { id := messageId
                    conversationId := conversationId
                    senderId := senderId
                    text := text
                    createdAt := ts
                    senderName := u.displayName
                    senderAvatar := u.avatarUrl },
              [.deriveKey, .encrypt, .authCheck, .insertMessage,
                .updateConversation]⟩

/-! ## Message route (`routes/messages.ts`) -/

/-- The JSON body of `POST /api/messages`; `createdAt` is `none` when the
field is missing or does not parse as a date. -/
structure PostMessagesBody where
  conversationId : Option String := none
  text : Option String := none
  createdAt : Option Nat := none
  senderId : Option String := none

/-- JavaScript falsiness of `payload.field` for an optional string: absent
or empty. -/
def falsyStr : Option String → Bool
  | none => true
  | some s => s == ""

/-- The `POST /api/messages` handler: resolve the sender id
(`authReq.user?.id ?? req.body.senderId ?? x-user-id header ?? 'user-123'`),
reject with 400 when `conversationId` or `text` is falsy, otherwise call
`createMessage` with a fresh message id and map its outcome to
201 / 403 (authorization) / 500. Returns the HTTP status and the store
after the call. -/
def postMessages (masterKey : Option String) (db : DB)
    (authUserId headerUserId : Option String) (body : PostMessagesBody)
    (freshMessageId : String) (ivBytes : List Nat) (now : Nat) :
    Nat × DB :=
  let senderId := match authUserId with
    | some u => u
    | none => match body.senderId with
      | some s => s
      | none => headerUserId.getD "user-123"
  if falsyStr body.conversationId || falsyStr body.text then
    (400, db)
  else
    let r := createMessage masterKey db freshMessageId
      (body.conversationId.getD "") senderId (strBytes (body.text.getD ""))
      body.createdAt ivBytes now
    match r.outcome with
    | .ok _ => (201, r.db)
    | .error .notAuthorized => (403, r.db)
    | .error _ => (500, r.db)

/-! ## Client reconciliation layer (`MessagingPanel.tsx`) -/

/-- The client-side message shape. -/
structure ClientMessage where
  id : String
  conversationId : String
  senderId : String
  text : String
  createdAt : Nat
deriving DecidableEq, Repr

/-- The chronological re-sort the panel applies
(`sort((a, b) => a.createdAt - b.createdAt)`, stable ascending). -/
def chronoSortClient (l : List ClientMessage) : List ClientMessage :=
  sortChrono (fun m => m.createdAt) l

/-- The near-duplicate test of the polling callback: same conversation,
sender and text, and creation timestamps fewer than 5000 ms apart. -/
def isNearDuplicate (m msg : ClientMessage) : Bool :=
  m.conversationId == msg.conversationId && m.senderId == msg.senderId &&
  m.text == msg.text &&
  decide (((m.createdAt : Int) - (msg.createdAt : Int)).natAbs < 5000)

/-- The `onSubscribeNewMessage` callback: reject a polled message whose id
is already present, or that near-duplicates an existing entry; otherwise
append and re-sort. -/
def addPolledMessage (prev : List ClientMessage) (msg : ClientMessage) :
    List ClientMessage :=
  if prev.any (fun m => m.id == msg.id) then prev
  else if prev.any (fun m => isNearDuplicate m msg) then prev
  else chronoSortClient (prev ++ [msg])

/-- Step of `handleSend`, optimistic: append the synthetic local message and
re-sort. -/
def optimisticInsert (prev : List ClientMessage)
    (localMsg : ClientMessage) : List ClientMessage :=
  chronoSortClient (prev ++ [localMsg])

/-- Step of `handleSend`, confirmation: replace every entry bearing the
temporary id with the server-returned message, then re-sort. -/
def confirmReplace (prev : List ClientMessage) (tempId : String)
    (created : ClientMessage) : List ClientMessage :=
  chronoSortClient (prev.map (fun m => if m.id == tempId then created else m))

/-- Step of `handleSend`, failure: drop the optimistic entry by its temporary
id. -/
def removeOptimistic (prev : List ClientMessage) (tempId : String) :
    List ClientMessage :=
  prev.filter (fun m => ¬ m.id == tempId)

/-! ## Gateway theorems -/

theorem encryptMessage_ok_of_length (p iv : List Nat) (key : String)
    (hkey : (b64decode key).length = KEY_LENGTH) (hiv : iv.length ≠ 0) :
    encryptMessage p key iv = .ok
      ⟨b64encode (gcmCiphertext (b64decode key) iv p
          ++ aesGcmTag (b64decode key) iv (gcmCiphertext (b64decode key) iv p)),
        b64encode iv⟩ := by
  simp only [encryptMessage]
  rw [if_neg (by simp [hkey]), if_neg hiv]

/-- C3: a caller with no active participant row makes `createMessage` fail
with the authorization error and leave the store — message rows and
conversation pointers alike — untouched, and makes `getMessages` fail with
the authorization error; a caller with an active row makes `getMessages`
succeed, and makes `createMessage` succeed provided the sender has a
`dbo.Users` row (guaranteed by the schema's foreign key) and the fresh
message id is unused (guaranteed by `randomUUID`). -/
theorem authorization_gate (masterKey : Option String) (db : DB)
    (messageId conversationId userId : String) (text : List Nat) (ts : Nat)
    (ivBytes : List Nat) (now : Nat) (params : MessageQueryParams)
    (hiv : ivBytes.length ≠ 0) :
    (isUserAuthorized db conversationId userId = false →
      (createMessage masterKey db messageId conversationId userId text
          (some ts) ivBytes now).outcome = .error .notAuthorized ∧
      (createMessage masterKey db messageId conversationId userId text
          (some ts) ivBytes now).db = db ∧
      getMessages masterKey db conversationId userId params
          = .error .notAuthorized) ∧
    (isUserAuthorized db conversationId userId = true →
      (∃ r, getMessages masterKey db conversationId userId params = .ok r) ∧
      ((∃ u ∈ db.users, u.id = userId) →
       (∀ m ∈ db.messages, m.id ≠ messageId) →
       ∃ dto, (createMessage masterKey db messageId conversationId userId text
          (some ts) ivBytes now).outcome = .ok dto)) := by
  have henc := encryptMessage_ok_of_length text ivBytes
    (getConversationKey masterKey conversationId)
    (length_b64decode_getConversationKey masterKey conversationId) hiv
  constructor
  · intro hauth
    refine ⟨?_, ?_, ?_⟩
    · simp only [createMessage, henc]
      rw [if_pos (by simp [hauth])]
    · simp only [createMessage, henc]
      rw [if_pos (by simp [hauth])]
    · simp only [getMessages]
      rw [if_pos (by simp [hauth])]
  · intro hauth
    constructor
    · simp only [getMessages]
      rw [if_neg (by simp [hauth])]
      exact ⟨_, rfl⟩
    · rintro ⟨u, hu, huid⟩ hfresh
      simp only [createMessage, henc]
      rw [if_neg (by simp [hauth])]
      have hdup : db.messages.any (fun m => m.id == messageId) = false := by
        rw [List.any_eq_false]
        intro m hm
        simpa using hfresh m hm
      rw [if_neg (by simp [hdup])]
      have hsome : (db.users.find? (fun x => x.id == userId)).isSome := by
        rw [List.find?_isSome]
        exact ⟨u, hu, by simp [huid]⟩
      obtain ⟨v, hv⟩ := Option.isSome_iff_exists.mp hsome
      simp only [hv]
      exact ⟨_, rfl⟩

/-- Fixture: the one registered user. -/
def userU1 : UserRow := ⟨"u1", none, none⟩

/-- Fixture: the one conversation. -/
def convC1 : ConversationRow := ⟨"c1", none, none, 0⟩

/-- Fixture: a store where `u1` is an active participant of `c1`. -/
def dbAuth : DB := ⟨[userU1], [convC1], [⟨"c1", "u1", none⟩], []⟩

/-- Fixture: a store where `u1` has left `c1` (leave timestamp set). -/
def dbLeft : DB := ⟨[userU1], [convC1], [⟨"c1", "u1", some 5⟩], []⟩

/-- Witness for the authorization gate: a departed participant is refused
by both operations with the store unchanged, an active one is served by
both. -/
theorem authorization_gate_witness :
    (isUserAuthorized dbLeft "c1" "u1" = false ∧
      (createMessage none dbLeft "m1" "c1" "u1" [104] (some 0) ivTest 0).outcome
        = .error .notAuthorized ∧
      (createMessage none dbLeft "m1" "c1" "u1" [104] (some 0) ivTest 0).db
        = dbLeft ∧
      getMessages none dbLeft "c1" "u1" ⟨none, none, none, none⟩
        = .error .notAuthorized) ∧
    (isUserAuthorized dbAuth "c1" "u1" = true ∧
      (∃ r, getMessages none dbAuth "c1" "u1" ⟨none, none, none, none⟩ = .ok r) ∧
      ∃ dto, (createMessage none dbAuth "m1" "c1" "u1" [104] (some 0) ivTest
        0).outcome = .ok dto) := by
  have h1 := (authorization_gate none dbLeft "m1" "c1" "u1" [104] 0 ivTest 0
    ⟨none, none, none, none⟩ (by decide)).1 (by decide)
  have h2 := (authorization_gate none dbAuth "m1" "c1" "u1" [104] 0 ivTest 0
    ⟨none, none, none, none⟩ (by decide)).2 (by decide)
  exact ⟨⟨by decide, h1.1, h1.2.1, h1.2.2⟩,
    ⟨by decide, h2.1, h2.2 (by decide) (by decide)⟩⟩

/-- Counterexample to the claimed operation order of `createMessage`: in a
store with no participants the sender is unauthorized, yet the call's trace
shows key derivation and encryption performed before the failing
authorization check — not an absence of them. -/
theorem createMessage_order_counterexample :
    isUserAuthorized ⟨[], [], [], []⟩ "c1" "u1" = false ∧
    (createMessage none ⟨[], [], [], []⟩ "m1" "c1" "u1" [104] (some 0)
      ivTest 0).trace = [.deriveKey, .encrypt, .authCheck] ∧
    Ev.encrypt ∈ (createMessage none ⟨[], [], [], []⟩ "m1" "c1" "u1" [104]
      (some 0) ivTest 0).trace := by
  refine ⟨by decide, ?_, ?_⟩ <;> decide

/-- C8 as amended: `createMessage` always derives the conversation key and
encrypts the plaintext first; the authorization check runs afterwards,
inside the store transaction, so an unauthorized sender still causes key
derivation and encryption but no insert and no store change. -/
theorem createMessage_order (masterKey : Option String) (db : DB)
    (messageId conversationId senderId : String) (text : List Nat)
    (createdAt : Option Nat) (ivBytes : List Nat) (now : Nat) :
    ((createMessage masterKey db messageId conversationId senderId text
        createdAt ivBytes now).trace.take 2 = [.deriveKey, .encrypt]) ∧
    (∀ ts, createdAt = some ts → ivBytes.length ≠ 0 →
      isUserAuthorized db conversationId senderId = false →
      (createMessage masterKey db messageId conversationId senderId text
          createdAt ivBytes now).trace = [.deriveKey, .encrypt, .authCheck] ∧
      Ev.insertMessage ∉ (createMessage masterKey db messageId conversationId
          senderId text createdAt ivBytes now).trace ∧
      (createMessage masterKey db messageId conversationId senderId text
          createdAt ivBytes now).db = db) := by
  constructor
  · simp only [createMessage]
    split
    · rfl
    · split
      · rfl
      · split
        · rfl
        · split
          · rfl
          · split
            · rfl
            · rfl
  · intro ts hts hiv hauth
    subst hts
    have henc := encryptMessage_ok_of_length text ivBytes
      (getConversationKey masterKey conversationId)
      (length_b64decode_getConversationKey masterKey conversationId) hiv
    refine ⟨?_, ?_, ?_⟩
    · simp only [createMessage, henc]
      rw [if_pos (by simp [hauth])]
    · simp only [createMessage, henc]
      rw [if_pos (by simp [hauth])]
      exact (by decide :
        Ev.insertMessage ∉ [Ev.deriveKey, Ev.encrypt, Ev.authCheck])
    · simp only [createMessage, henc]
      rw [if_pos (by simp [hauth])]

/-- Witness for the amended order theorem, at the departed-participant
fixture. -/
theorem createMessage_order_witness :
    ((createMessage none dbLeft "m1" "c1" "u1" [104] (some 0) ivTest
        0).trace.take 2 = [.deriveKey, .encrypt]) ∧
    (ivTest.length ≠ 0 ∧ isUserAuthorized dbLeft "c1" "u1" = false) ∧
    ((createMessage none dbLeft "m1" "c1" "u1" [104] (some 0) ivTest 0).trace
        = [.deriveKey, .encrypt, .authCheck] ∧
      Ev.insertMessage ∉ (createMessage none dbLeft "m1" "c1" "u1" [104]
        (some 0) ivTest 0).trace ∧
      (createMessage none dbLeft "m1" "c1" "u1" [104] (some 0) ivTest 0).db
        = dbLeft) := by
  have h := createMessage_order none dbLeft "m1" "c1" "u1" [104] (some 0)
    ivTest 0
  exact ⟨h.1, ⟨by decide, by decide⟩, h.2 0 rfl (by decide) (by decide)⟩

/-- Counterexample to the claimed 400-on-missing-fields rule: a body whose
`createdAt` is missing (with `conversationId` and `text` present) is not
rejected with 400 — the handler calls the service, whose driver rejects the
invalid date, and responds 500. -/
theorem postMessages_missing_createdAt_counterexample :
    (⟨some "c1", some "hi", none, none⟩ : PostMessagesBody).createdAt
        = none ∧
    (postMessages none dbAuth none none ⟨some "c1", some "hi", none, none⟩
        "m1" ivTest 0).1 = 500 ∧
    (postMessages none dbAuth none none ⟨some "c1", some "hi", none, none⟩
        "m1" ivTest 0).1 ≠ 400 := by
  refine ⟨rfl, ?_, ?_⟩ <;> decide

/-- C9 as amended: `POST /messages` responds 400, creating nothing, exactly
when `conversationId` or `text` is missing (or empty); a missing
`createdAt` alone is not validated — the call reaches the service, fails as
an invalid date and surfaces as 500, still creating no message. -/
theorem postMessages_validation (masterKey : Option String) (db : DB)
    (authUserId headerUserId : Option String) (body : PostMessagesBody)
    (freshMessageId : String) (ivBytes : List Nat) (now : Nat) :
    ((falsyStr body.conversationId || falsyStr body.text) = true →
      postMessages masterKey db authUserId headerUserId body freshMessageId
        ivBytes now = (400, db)) ∧
    ((falsyStr body.conversationId || falsyStr body.text) = false →
      body.createdAt = none → ivBytes.length ≠ 0 →
      (postMessages masterKey db authUserId headerUserId body freshMessageId
        ivBytes now).1 = 500 ∧
      (postMessages masterKey db authUserId headerUserId body freshMessageId
        ivBytes now).2 = db) := by
  constructor
  · intro h
    simp only [postMessages]
    rw [if_pos h]
  · intro h hc hiv
    have henc := encryptMessage_ok_of_length
      (strBytes (body.text.getD ""))
      ivBytes
      (getConversationKey masterKey (body.conversationId.getD ""))
      (length_b64decode_getConversationKey masterKey
        (body.conversationId.getD "")) hiv
    constructor
    · simp only [postMessages]
      rw [if_neg (by simp [h])]
      simp only [createMessage, henc, hc]
    · simp only [postMessages]
      rw [if_neg (by simp [h])]
      simp only [createMessage, henc, hc]

/-- Witness for the route validation theorem: a missing `text` yields 400
with the store untouched; a missing `createdAt` yields 500 with the store
untouched. -/
theorem postMessages_validation_witness :
    ((falsyStr (some "c1") || falsyStr none) = true ∧
      postMessages none dbAuth none none ⟨some "c1", none, none, none⟩ "m1"
        ivTest 0 = (400, dbAuth)) ∧
    ((falsyStr (some "c1") || falsyStr (some "hi")) = false ∧
      (postMessages none dbAuth none none ⟨some "c1", some "hi", none, none⟩
        "m2" ivTest 0).1 = 500 ∧
      (postMessages none dbAuth none none ⟨some "c1", some "hi", none, none⟩
        "m2" ivTest 0).2 = dbAuth) := by
  have h1 := (postMessages_validation none dbAuth none none
    ⟨some "c1", none, none, none⟩ "m1" ivTest 0).1 (by decide)
  have h2 := (postMessages_validation none dbAuth none none
    ⟨some "c1", some "hi", none, none⟩ "m2" ivTest 0).2 (by decide) rfl
    (by decide)
  exact ⟨⟨by decide, h1⟩, ⟨by decide, h2.1, h2.2⟩⟩

theorem length_filterMap_of_isSome {α β : Type} (f : α → Option β) :
    ∀ l : List α, (∀ x ∈ l, (f x).isSome) →
      (l.filterMap f).length = l.length
  | [], _ => rfl
  | x :: xs, h => by
      obtain ⟨y, hy⟩ := Option.isSome_iff_exists.mp (h x (by simp))
      rw [List.filterMap_cons, hy]
      simp [length_filterMap_of_isSome f xs (fun a ha => h a (by simp [ha]))]

/-- C4 as amended: an authorized `getMessages` call returns the
conversation's live (non-deleted) rows within the requested boundary,
ascending by creation time, windowed by offset and by the effective limit
(the requested limit, except that an absent or zero limit defaults to 50,
capped at 100); `total` counts all live rows of the conversation and
`hasMore` is `offset + returned count < total`. The sender join is total
under the schema's foreign key, stated as the `husers` hypothesis. -/
theorem getMessages_pagination (masterKey : Option String) (db : DB)
    (conversationId userId : String) (params : MessageQueryParams)
    (hauth : isUserAuthorized db conversationId userId = true)
    (husers : ∀ m ∈ db.messages,
      (db.users.find? (fun u => u.id == m.senderId)).isSome) :
    ∃ r, getMessages masterKey db conversationId userId params = .ok r ∧
      r.data = (selectMessagesPage db conversationId params).map
        (decryptRow (getConversationKey masterKey conversationId)) ∧
      r.data.Pairwise (fun a b => a.createdAt ≤ b.createdAt) ∧
      (∀ d ∈ r.data, ∃ m ∈ db.messages, m.conversationId = conversationId ∧
        m.deletedAt = none ∧ d.id = m.id ∧ d.createdAt = m.createdAt ∧
        d.senderId = m.senderId) ∧
      r.data.length = min (effectiveLimit params.limit)
        ((db.messages.filter (fun m => isLiveConvMessage conversationId m
            && boundaryPred db params m)).length - params.offset.getD 0) ∧
      effectiveLimit params.limit ≤ 100 ∧
      r.total = totalCount db conversationId ∧
      (r.hasMore = true ↔
        params.offset.getD 0 + r.data.length < r.total) := by
  have hpage : selectMessagesPage db conversationId params
      = ((sortChrono (fun r => r.1.createdAt)
          ((db.messages.filter (fun m => isLiveConvMessage conversationId m
              && boundaryPred db params m)).filterMap (fun m =>
            (db.users.find? (fun u => u.id == m.senderId)).map
              (fun u => (m, u))))).drop
          (params.offset.getD 0)).take (effectiveLimit params.limit) := rfl
  have hsub : List.Sublist (selectMessagesPage db conversationId params)
      (sortChrono (fun r => r.1.createdAt)
          ((db.messages.filter (fun m => isLiveConvMessage conversationId m
              && boundaryPred db params m)).filterMap (fun m =>
            (db.users.find? (fun u => u.id == m.senderId)).map
              (fun u => (m, u))))) := by
    rw [hpage]
    exact (List.take_sublist _ _).trans (List.drop_sublist _ _)
  refine ⟨⟨(selectMessagesPage db conversationId params).map
      (decryptRow (getConversationKey masterKey conversationId)),
    decide (params.offset.getD 0
      + (selectMessagesPage db conversationId params).length
      < totalCount db conversationId),
    totalCount db conversationId⟩, ?_, rfl, ?_, ?_, ?_, ?_, rfl, ?_⟩
  · simp only [getMessages]
    rw [if_neg (by simp [hauth])]
  · rw [List.pairwise_map]
    refine List.Pairwise.sublist hsub ?_
    exact sortChrono_sorted _ _
  · intro d hd
    obtain ⟨pr, hpr, rfl⟩ := List.mem_map.mp hd
    have hpr2 : pr ∈ sortChrono (fun r => r.1.createdAt)
        ((db.messages.filter (fun m => isLiveConvMessage conversationId m
            && boundaryPred db params m)).filterMap (fun m =>
          (db.users.find? (fun u => u.id == m.senderId)).map
            (fun u => (m, u)))) := hsub.subset hpr
    have hpr3 := (sortChrono_perm _ _).mem_iff.mp hpr2
    obtain ⟨m, hm, hmap⟩ := List.mem_filterMap.mp hpr3
    obtain ⟨u, _, hu2⟩ := Option.map_eq_some'.mp hmap
    obtain ⟨hmem, hlive⟩ := List.mem_filter.mp hm
    have hlive' : isLiveConvMessage conversationId m = true :=
      (Bool.and_eq_true .. ▸ hlive).1
    have hconv : m.conversationId = conversationId := by
      have := (Bool.and_eq_true .. ▸ hlive').1
      simpa using this
    have hdel : m.deletedAt = none := by
      have := (Bool.and_eq_true .. ▸ hlive').2
      simpa using this
    subst hu2
    exact ⟨m, hmem, hconv, hdel, rfl, rfl, rfl⟩
  · simp only [List.length_map, hpage, List.length_take, List.length_drop]
    congr 1
    rw [(sortChrono_perm _ _).length_eq]
    rw [length_filterMap_of_isSome]
    intro m hm
    have hh := husers m (List.mem_filter.mp hm).1
    cases hfind : db.users.find? (fun u => u.id == m.senderId) with
    | none => rw [hfind] at hh; simp at hh
    | some u => rfl
  · exact Nat.min_le_right _ _
  · simp [List.length_map]

/-- Fixture: one live message in `c1` (its envelope is not decryptable,
which `getMessages` tolerates). -/
def rowM1 : MessageRow :=
  { id := "m1"
    conversationId := "c1"
    senderId := "u1"
    ciphertext := "xx"
    iv := "xx"
    createdAt := 1000 }

/-- Fixture: an authorized store holding exactly one live message. -/
def dbOneMsg : DB := ⟨[userU1], [convC1], [⟨"c1", "u1", none⟩], [rowM1]⟩

/-- Counterexample to the claimed `min(limit, 100)` bound: a call with
`limit = 0` returns one message, not at most `min(0, 100) = 0` — JavaScript
`params.limit || 50` turns a zero limit into the default 50. -/
theorem getMessages_limit_zero_counterexample :
    (getMessages none dbOneMsg "c1" "u1" ⟨some 0, none, none, none⟩).map
        (fun r => r.data.length) = .ok 1 ∧
    ¬ (1 ≤ min 0 100) := by
  exact ⟨by decide, by decide⟩

/-- Witness for the pagination theorem at the one-message fixture with
`limit = 2`. -/
theorem getMessages_pagination_witness :
    (isUserAuthorized dbOneMsg "c1" "u1" = true ∧
      (∀ m ∈ dbOneMsg.messages,
        (dbOneMsg.users.find? (fun u => u.id == m.senderId)).isSome)) ∧
    (∃ r, getMessages none dbOneMsg "c1" "u1" ⟨some 2, none, none, none⟩
        = .ok r ∧
      r.data = (selectMessagesPage dbOneMsg "c1"
          ⟨some 2, none, none, none⟩).map
        (decryptRow (getConversationKey none "c1")) ∧
      r.data.Pairwise (fun a b => a.createdAt ≤ b.createdAt) ∧
      (∀ d ∈ r.data, ∃ m ∈ dbOneMsg.messages, m.conversationId = "c1" ∧
        m.deletedAt = none ∧ d.id = m.id ∧ d.createdAt = m.createdAt ∧
        d.senderId = m.senderId) ∧
      r.data.length = min (effectiveLimit (some 2))
        ((dbOneMsg.messages.filter (fun m => isLiveConvMessage "c1" m
            && boundaryPred dbOneMsg ⟨some 2, none, none, none⟩ m)).length
          - (some 0 : Option Nat).getD 0) ∧
      effectiveLimit (some 2) ≤ 100 ∧
      r.total = totalCount dbOneMsg "c1" ∧
      (r.hasMore = true ↔
        ((⟨some 2, none, none, none⟩ : MessageQueryParams).offset).getD 0
          + r.data.length < r.total)) := by
  refine ⟨⟨by decide, by decide⟩, ?_⟩
  have h := getMessages_pagination none dbOneMsg "c1" "u1"
    ⟨some 2, none, none, none⟩ (by decide) (by decide)
  exact h

/-- C5: an authorized read always returns one entry per selected row — a
row whose envelope fails to decrypt does not abort the batch; it comes back
with the placeholder text while every row whose envelope decrypts comes
back with its plaintext. -/
theorem getMessages_decrypt_degrades (masterKey : Option String) (db : DB)
    (conversationId userId : String) (params : MessageQueryParams)
    (hauth : isUserAuthorized db conversationId userId = true) :
    ∃ r, getMessages masterKey db conversationId userId params = .ok r ∧
      r.data.length = (selectMessagesPage db conversationId params).length ∧
      ∀ i, (h1 : i < (selectMessagesPage db conversationId params).length) →
        (∀ t, decryptMessage
            (selectMessagesPage db conversationId params)[i].1.ciphertext
            (selectMessagesPage db conversationId params)[i].1.iv
            (getConversationKey masterKey conversationId) = .ok t →
          ∃ h2 : i < r.data.length, (r.data[i]).text = t) ∧
        (∀ e, decryptMessage
            (selectMessagesPage db conversationId params)[i].1.ciphertext
            (selectMessagesPage db conversationId params)[i].1.iv
            (getConversationKey masterKey conversationId) = .error e →
          ∃ h2 : i < r.data.length, (r.data[i]).text = placeholderBytes) ∧
        (∃ h2 : i < r.data.length,
          (r.data[i]).id = (selectMessagesPage db conversationId params)[i].1.id) := by
  simp only [getMessages]
  rw [if_neg (by simp [hauth])]
  refine ⟨_, rfl, by simp, ?_⟩
  intro i h1
  have h2 : i < ((selectMessagesPage db conversationId params).map
      (decryptRow (getConversationKey masterKey conversationId))).length := by
    simpa using h1
  refine ⟨?_, ?_, ⟨h2, ?_⟩⟩
  · intro t ht
    refine ⟨h2, ?_⟩
    rw [List.getElem_map]
    simp [decryptRow, ht]
  · intro e he
    refine ⟨h2, ?_⟩
    rw [List.getElem_map]
    simp [decryptRow, he]
  · rw [List.getElem_map]
    rfl

/-- Fixture: a decryptable envelope for the plaintext bytes of `hi` under
the conversation key of `c1`. -/
def envGood : Envelope :=
  match encryptMessage [104, 105] (getConversationKey none "c1") ivTest with
  | .ok e => e
  | .error _ => ⟨"", ""⟩

/-- Fixture: a live message whose envelope decrypts. -/
def rowGood : MessageRow :=
  { id := "m2"
    conversationId := "c1"
    senderId := "u1"
    ciphertext := envGood.ciphertext
    iv := envGood.iv
    createdAt := 2000 }

/-- Fixture: an authorized store with one undecryptable and one decryptable
message. -/
def dbTwoMsg : DB := ⟨[userU1], [convC1], [⟨"c1", "u1", none⟩], [rowM1, rowGood]⟩

set_option maxRecDepth 10000 in
/-- Witness for the degradation theorem: with one garbage envelope and one
valid one, the read returns both rows — the first as the placeholder, the
second as its plaintext. -/
theorem getMessages_decrypt_degrades_witness :
    isUserAuthorized dbTwoMsg "c1" "u1" = true ∧
    (∃ r, getMessages none dbTwoMsg "c1" "u1" ⟨none, none, none, none⟩
        = .ok r ∧
      r.data.length = (selectMessagesPage dbTwoMsg "c1"
        ⟨none, none, none, none⟩).length ∧
      ∀ i, (h1 : i < (selectMessagesPage dbTwoMsg "c1"
          ⟨none, none, none, none⟩).length) →
        (∀ t, decryptMessage
            (selectMessagesPage dbTwoMsg "c1" ⟨none, none, none, none⟩)[i].1.ciphertext
            (selectMessagesPage dbTwoMsg "c1" ⟨none, none, none, none⟩)[i].1.iv
            (getConversationKey none "c1") = .ok t →
          ∃ h2 : i < r.data.length, (r.data[i]).text = t) ∧
        (∀ e, decryptMessage
            (selectMessagesPage dbTwoMsg "c1" ⟨none, none, none, none⟩)[i].1.ciphertext
            (selectMessagesPage dbTwoMsg "c1" ⟨none, none, none, none⟩)[i].1.iv
            (getConversationKey none "c1") = .error e →
          ∃ h2 : i < r.data.length, (r.data[i]).text = placeholderBytes) ∧
        (∃ h2 : i < r.data.length,
          (r.data[i]).id = (selectMessagesPage dbTwoMsg "c1"
            ⟨none, none, none, none⟩)[i].1.id)) ∧
    (getMessages none dbTwoMsg "c1" "u1" ⟨none, none, none, none⟩).map
        (fun r => r.data.map (fun d => d.text))
      = .ok [placeholderBytes, [104, 105]] :=
  ⟨by decide,
    getMessages_decrypt_degrades none dbTwoMsg "c1" "u1"
      ⟨none, none, none, none⟩ (by decide),
    by decide⟩

/-! ## Client reconciliation theorems -/

/-- C6: a polled message is rejected when its id is already present, or
when an entry with the same conversation, sender and text sits within
5000 ms of it; otherwise it is inserted and the sequence re-sorted
ascending by creation time. And once an optimistic entry (appearing exactly
once, under a temporary id) has been replaced by the server-confirmed
message whose id was not yet present, the sequence holds exactly one entry
under the server id, and a poll re-delivering that same message leaves the
sequence unchanged. -/
theorem addPolledMessage_spec (prev : List ClientMessage)
    (msg : ClientMessage) :
    (prev.any (fun m => m.id == msg.id) = true →
      addPolledMessage prev msg = prev) ∧
    (prev.any (fun m => m.id == msg.id) = false →
      prev.any (fun m => isNearDuplicate m msg) = true →
      addPolledMessage prev msg = prev) ∧
    (prev.any (fun m => m.id == msg.id) = false →
      prev.any (fun m => isNearDuplicate m msg) = false →
      addPolledMessage prev msg = chronoSortClient (prev ++ [msg]) ∧
      (addPolledMessage prev msg).Perm (prev ++ [msg]) ∧
      (addPolledMessage prev msg).Pairwise
        (fun a b => a.createdAt ≤ b.createdAt)) ∧
    (∀ tempId : String,
      prev.countP (fun m => m.id == tempId) = 1 →
      (∀ m ∈ prev, m.id ≠ msg.id) →
      (confirmReplace prev tempId msg).countP
          (fun m => m.id == msg.id) = 1 ∧
      addPolledMessage (confirmReplace prev tempId msg) msg
        = confirmReplace prev tempId msg) := by
  refine ⟨?_, ?_, ?_, ?_⟩
  · intro h
    simp only [addPolledMessage]
    rw [if_pos h]
  · intro h1 h2
    simp only [addPolledMessage]
    rw [if_neg (by simp [h1]), if_pos h2]
  · intro h1 h2
    have heq : addPolledMessage prev msg = chronoSortClient (prev ++ [msg]) := by
      simp only [addPolledMessage]
      rw [if_neg (by simp [h1]), if_neg (by simp [h2])]
    refine ⟨heq, ?_, ?_⟩
    · rw [heq]
      exact sortChrono_perm _ _
    · rw [heq]
      exact sortChrono_sorted _ _
  · intro tempId hcount hfresh
    have hcnt : (confirmReplace prev tempId msg).countP
        (fun m => m.id == msg.id) = 1 := by
      rw [confirmReplace, chronoSortClient]
      rw [(sortChrono_perm _ _).countP_eq]
      rw [List.countP_map]
      rw [← hcount]
      apply List.countP_congr
      intro m hm
      by_cases hid : m.id = tempId
      · simp [Function.comp, hid]
      · have hne : m.id ≠ msg.id := hfresh m hm
        simp [Function.comp, hid, hne]
    refine ⟨hcnt, ?_⟩
    have hany : (confirmReplace prev tempId msg).any
        (fun m => m.id == msg.id) = true := by
      rw [List.any_eq_true]
      have hpos : 0 < (confirmReplace prev tempId msg).countP
          (fun m => m.id == msg.id) := by omega
      exact List.countP_pos_iff.mp hpos
    simp only [addPolledMessage]
    rw [if_pos hany]

/-- Fixture: the optimistic local entry for `hi`. -/
def tmpMsg : ClientMessage := ⟨"tmp1", "c1", "u1", "hi", 1000⟩

/-- Fixture: the server confirmation of `hi`, 200 ms later under the server
id. -/
def srvMsg : ClientMessage := ⟨"s1", "c1", "u1", "hi", 1200⟩

/-- Witness for the reconciliation theorem: the optimistic-send scenario —
confirm replaces the single `tmp1` entry with the server message, exactly
one `s1` entry remains, and a poll re-delivering it changes nothing; a
fresh far-away message is inserted in order. -/
theorem addPolledMessage_spec_witness :
    ([tmpMsg].countP (fun m => m.id == "tmp1") = 1 ∧
      (∀ m ∈ [tmpMsg], m.id ≠ srvMsg.id)) ∧
    ((confirmReplace [tmpMsg] "tmp1" srvMsg).countP
        (fun m => m.id == srvMsg.id) = 1 ∧
      addPolledMessage (confirmReplace [tmpMsg] "tmp1" srvMsg) srvMsg
        = confirmReplace [tmpMsg] "tmp1" srvMsg) ∧
    ([srvMsg].any (fun m => m.id == srvMsg.id) = true ∧
      addPolledMessage [srvMsg] srvMsg = [srvMsg]) ∧
    ([srvMsg].any (fun m => m.id == (⟨"x9", "c1", "u2", "yo", 99999⟩ :
        ClientMessage).id) = false ∧
      [srvMsg].any (fun m => isNearDuplicate m
        ⟨"x9", "c1", "u2", "yo", 99999⟩) = false ∧
      addPolledMessage [srvMsg] ⟨"x9", "c1", "u2", "yo", 99999⟩
        = chronoSortClient ([srvMsg] ++ [⟨"x9", "c1", "u2", "yo", 99999⟩])) := by
  have hscen := (addPolledMessage_spec [tmpMsg] srvMsg).2.2.2 "tmp1"
    (by decide) (by decide)
  have hrej := (addPolledMessage_spec [srvMsg] srvMsg).1 (by decide)
  have hins := ((addPolledMessage_spec [srvMsg]
    ⟨"x9", "c1", "u2", "yo", 99999⟩).2.2.1 (by decide) (by decide)).1
  exact ⟨⟨by decide, by decide⟩, hscen, ⟨by decide, hrej⟩,
    ⟨by decide, by decide, hins⟩⟩
